import Mathlib

/-!
# Calendar page script (`todolist/static/js/calendar.js`)

A shallow embedding of the script: the live document is a list of elements in
document order, the host (clock, viewport, date parser, modal registry) is
passed explicitly, and every event handler is a function on the `World`.
-/

namespace Calendar

/-! ## Host values -/

/-- Time value of a JavaScript `Date`: `none` is NaN (an Invalid Date),
`some t` is `t` milliseconds since the epoch. -/
abbrev TimeValue := Option Int

/-- Argument shapes that reach `new Date(value)` in the script. -/
inductive DateArg where
  /-- a string: handed to the host date parser -/
  | str (s : String)
  /-- the value `null` (what `getAttribute` returns for an absent attribute) -/
  | null
  /-- a `Date` object: its time value is copied -/
  | date (tv : TimeValue)
deriving DecidableEq, Repr

/-- Constructor call `new Date(value)`. A string is parsed by the host parser
`parse` (NaN when it does not parse), `null` is converted with ToNumber and
gives time value 0, a `Date` object gives its own time value. -/
def newDate (parse : String → TimeValue) : DateArg → TimeValue
  | .str s => parse s
  | .null => some 0
  | .date tv => tv

/-- Relational `a < b` on two `Date` objects: both sides become their time
values, and a comparison that involves NaN is false. -/
def dateLt : TimeValue → TimeValue → Bool
  | some a, some b => decide (a < b)
  | _, _ => false

/-- Exceptions a handler can end with. -/
inductive JsError where
  /-- property access on `null` -/
  | typeError
deriving DecidableEq, Repr

/-! ## Document model -/

/-- Inline style properties the script writes. The empty string is an unset property. -/
structure Style where
  cursor : String
  fontSize : String
deriving DecidableEq, Repr

/-- An element node: its attributes other than `class` and `style`, the token
set of its `class` attribute, and its inline style. -/
structure Element where
  attributes : List (String × String)
  classList : List String
  style : Style
deriving DecidableEq, Repr

/-- Method `el.getAttribute(name)`: the value, or `none` for JavaScript `null`. -/
def Element.getAttribute (el : Element) (name : String) : Option String :=
  (el.attributes.find? (fun kv => kv.1 == name)).map (fun kv => kv.2)

/-- Method `classList.add(token)`: the token is appended unless already present. -/
def classListAdd (tokens : List String) (token : String) : List String :=
  if token ∈ tokens then tokens else tokens ++ [token]

/-- The selectors used by the script. -/
inductive Selector where
  /-- `[name]`: the element carries the attribute -/
  | hasAttr (name : String)
  /-- `.name`: the element has the class -/
  | cls (name : String)
deriving DecidableEq, Repr

/-- Whether an element matches a selector. -/
def Selector.test : Selector → Element → Bool
  | .hasAttr name, el => (el.getAttribute name).isSome
  | .cls name, el => decide (name ∈ el.classList)

/-- Position of the first node, in document order, that satisfies `p`. -/
def firstIndex (p : Element → Bool) : List Element → Option Nat
  | [] => none
  | e :: es => if p e then some 0 else (firstIndex p es).map (fun i => i + 1)

/-- Call `document.querySelector(sel)`: the first match in document order. -/
def querySelector (sel : Selector) (document : List Element) : Option Nat :=
  firstIndex (Selector.test sel) document

/-- Call `document.getElementById(id)`: the first element with that id. -/
def getElementById (document : List Element) (id : String) : Option Nat :=
  firstIndex (fun el => el.getAttribute "id" == some id) document

/-- Replace the node at position `i` by `f` of it. -/
def updateAt (f : Element → Element) : Nat → List Element → List Element
  | _, [] => []
  | 0, e :: es => f e :: es
  | i + 1, e :: es => e :: updateAt f i es

/-- Everything the handlers read or write. Nodes are identified by their
position in `document`. `modalInstances` is the modal widget library registry
(node position, instance), `hideCalls` records each `hide()` call by instance,
oldest first. -/
structure World where
  document : List Element
  innerWidth : Int
  now : Int
  modalInstances : List (Nat × Nat)
  hideCalls : List Nat
deriving DecidableEq, Repr

/-! ## `formatDate` -/

/-- The options object handed to `toLocaleDateString`: a record, so the order
in which the script lists its keys carries no meaning. -/
structure DateTimeFormatOptions where
  weekday : String
  year : String
  month : String
  day : String
deriving DecidableEq, Repr

/-- Function `formatDate(dateStr)`. The rendering itself is done by the host
method `toLocaleDateString` from its locale data, taken here as a parameter. -/
def formatDate (parse : String → TimeValue)
    (toLocaleDateString : TimeValue → String → DateTimeFormatOptions → String)
    (dateStr : String) : String :=
  let date := newDate parse (.str dateStr)
  toLocaleDateString date "en-US"
    { weekday := "long", year := "numeric", month := "long", day := "numeric" }

/-! ## `getTodayDate` -/

/-- Results of the local-time getters of the `Date` built by `new Date()`:
`getFullYear()`, `getMonth()` (0 to 11) and `getDate()` (1 to 31). -/
structure LocalDate where
  fullYear : Int
  month : Nat
  date : Nat
deriving DecidableEq, Repr

/-- Conversion of an integer number to a string: decimal digits, with a
leading minus sign for a negative number. -/
def jsString (n : Int) : String := toString n

/-- Method `s.padStart(targetLength, fillString)`. -/
def padStart (s : String) (targetLength : Nat) (fillString : String) : String :=
  if targetLength ≤ s.length then s
  else if fillString = "" then s
  else
    let fillLen := targetLength - s.length
    String.mk (((List.replicate fillLen fillString.data).flatten).take fillLen) ++ s

/-- Function `getTodayDate()`, on the getter results of the current moment. -/
def getTodayDate (today : LocalDate) : String :=
  let year := today.fullYear
  let month := padStart (jsString ((today.month : Int) + 1)) 2 "0"
  let day := padStart (jsString (today.date : Int)) 2 "0"
  jsString year ++ "-" ++ month ++ "-" ++ day

/-- The pattern of a calendar date string: four digits, `-`, two digits, `-`,
two digits, and nothing else. -/
def isDatePattern (s : String) : Bool :=
  match s.data with
  | [y1, y2, y3, y4, s1, m1, m2, s2, d1, d2] =>
    y1.isDigit && y2.isDigit && y3.isDigit && y4.isDigit && s1 == '-' &&
      m1.isDigit && m2.isDigit && s2 == '-' && d1.isDigit && d2.isDigit
  | _ => false

/-- Number written by a list of decimal digit characters. -/
def digitsValue (cs : List Char) : Nat :=
  cs.foldl (fun acc c => 10 * acc + (c.toNat - 48)) 0

/-- Year, month and day fields of a string of the calendar date pattern. -/
def dateFields (s : String) : Option (Nat × Nat × Nat) :=
  if isDatePattern s then
    match s.data with
    | [y1, y2, y3, y4, _, m1, m2, _, d1, d2] =>
      some (digitsValue [y1, y2, y3, y4], digitsValue [m1, m2], digitsValue [d1, d2])
    | _ => none
  else none

/-! ## Past-day marker (`DOMContentLoaded`) -/

/-- Value of `document.querySelector('[data-today]')?.getAttribute('data-today')`:
`none` when it is `undefined` or `null`. -/
def dataTodayAttr (document : List Element) : Option String :=
  ((querySelector (.hasAttr "data-today") document).bind (fun i => document[i]?)).bind
    (fun el => el.getAttribute "data-today")

/-- Expression `<attribute> || new Date()`: the attribute value when it is
truthy (a non-empty string), else a `Date` of the current moment. -/
def todayArg (w : World) : DateArg :=
  match dataTodayAttr w.document with
  | some s => if s = "" then .date (some w.now) else .str s
  | none => .date (some w.now)

/-- The constant `today` of the handler. -/
def referenceToday (parse : String → TimeValue) (w : World) : TimeValue :=
  newDate parse (todayArg w)

/-- The constant `dateObj` built for one day element. -/
def dateObjOf (parse : String → TimeValue) (dayElement : Element) : TimeValue :=
  let dateStr := dayElement.getAttribute "data-date"
  newDate parse (match dateStr with
    | some s => .str s
    | none => .null)

/-- The two statements of the `if` body. -/
def markPast (dayElement : Element) : Element :=
  { dayElement with
    classList := classListAdd dayElement.classList "past"
    style := { dayElement.style with cursor := "not-allowed" } }

/-- Body of the `forEach` callback. -/
def markIfPast (parse : String → TimeValue) (today : TimeValue) (dayElement : Element) :
    Element :=
  if dateLt (dateObjOf parse dayElement) today then markPast dayElement else dayElement

/-- The `DOMContentLoaded` listener. -/
def onDOMContentLoaded (parse : String → TimeValue) (w : World) : Except JsError World :=
  let today := referenceToday parse w
  .ok { w with
    document := w.document.map (fun el =>
      if Selector.test (.cls "day") el then markIfPast parse today el else el) }

/-- What the listener does to one node of the document: the `forEach` callback
on a `.day` element, nothing on any other node. -/
def markNode (parse : String → TimeValue) (today : TimeValue) (el : Element) : Element :=
  if Selector.test (.cls "day") el then markIfPast parse today el else el

/-! ## Responsive font sizer -/

/-- Assignment `el.style.fontSize = v`. -/
def setFontSize (v : String) (el : Element) : Element :=
  { el with style := { el.style with fontSize := v } }

/-- Function `makeCalendarResponsive()`. -/
def makeCalendarResponsive (w : World) : Except JsError World :=
  match querySelector (.cls "calendar") w.document with
  | none => .error .typeError
  | some calendarContainer =>
    if w.innerWidth < 768 then
      .ok { w with document := updateAt (setFontSize "80%") calendarContainer w.document }
    else
      .ok { w with document := updateAt (setFontSize "100%") calendarContainer w.document }

/-! ## Escape-to-close -/

/-- Call `bootstrap.Modal.getInstance(element)`: the instance registered for
the node, `none` for `null` (also when the argument is `null`). -/
def modalGetInstance (w : World) : Option Nat → Option Nat
  | none => none
  | some node => (w.modalInstances.find? (fun kv => kv.1 == node)).map (fun kv => kv.2)

/-- The `keydown` listener, on the `key` of the event. -/
def onKeydown (key : String) (w : World) : Except JsError World :=
  if key = "Escape" then
    match modalGetInstance w (getElementById w.document "addTaskModal") with
    | some modal => .ok { w with hideCalls := w.hideCalls ++ [modal] }
    | none => .ok w
  else .ok w

/-! ## Event dispatch -/

/-- The events the script listens to. -/
inductive Event where
  | domContentLoaded
  | resize
  | load
  | keydown (key : String)
deriving DecidableEq, Repr

/-- The listener registered for each event. -/
def dispatch (parse : String → TimeValue) : Event → World → Except JsError World
  | .domContentLoaded, w => onDOMContentLoaded parse w
  | .resize, w => makeCalendarResponsive w
  | .load, w => makeCalendarResponsive w
  | .keydown key, w => onKeydown key w

/-- World after a listener ran: an exception leaves the world as the listener
found it (each throw site of the script precedes every write). -/
def settle (w : World) : Except JsError World → World
  | .ok w' => w'
  | .error _ => w

/-! ## Concrete fixtures -/

/-- A host date parser cut down to three date-only strings, each at its UTC
midnight; every other string, the empty one included, is NaN. -/
def sampleParse (s : String) : TimeValue :=
  if s = "2024-01-10" then some 1704844800000
  else if s = "2024-01-15" then some 1705276800000
  else if s = "2024-01-20" then some 1705708800000
  else none

/-- A day cell for the date `d`, unmarked. -/
def dayCell (d : String) : Element :=
  { attributes := [("data-date", d)], classList := ["day"], style := { cursor := "", fontSize := "" } }

/-- A day cell for the date `d` that the page already delivers as past. -/
def dayCellMarked (d : String) : Element :=
  { attributes := [("data-date", d)], classList := ["day", "past"],
    style := { cursor := "not-allowed", fontSize := "" } }

/-- A day cell without a `data-date` attribute. -/
def dayCellNoDate : Element :=
  { attributes := [], classList := ["day"], style := { cursor := "", fontSize := "" } }

/-- The calendar container carrying `data-today = t`. -/
def calendarBox (t : String) : Element :=
  { attributes := [("data-today", t)], classList := ["calendar"],
    style := { cursor := "", fontSize := "12px" } }

/-- The calendar container of a page that embeds no `data-today`. -/
def calendarBoxPlain : Element :=
  { attributes := [], classList := ["calendar"], style := { cursor := "", fontSize := "12px" } }

/-- The modal dialog element. -/
def modalBox : Element :=
  { attributes := [("id", "addTaskModal")], classList := ["modal"],
    style := { cursor := "", fontSize := "" } }

/-- A page: container with `data-today = t`, the given day cells, the modal
dialog with instance 7 registered for it; viewport `width`, clock `now`. -/
def samplePage (t : String) (days : List Element) (width now : Int) : World :=
  { document := calendarBox t :: (days ++ [modalBox]),
    innerWidth := width, now := now,
    modalInstances := [(days.length + 1, 7)], hideCalls := [] }

/-- A page without `data-today`: plain container, the given day cells, the
modal dialog with no instance registered; viewport `width`, clock `now`. -/
def clockPage (days : List Element) (width now : Int) : World :=
  { document := calendarBoxPlain :: (days ++ [modalBox]),
    innerWidth := width, now := now, modalInstances := [], hideCalls := [] }

/-- A page without a calendar container: only the modal dialog. -/
def barePage (width now : Int) : World :=
  { document := [modalBox], innerWidth := width, now := now,
    modalInstances := [(0, 7)], hideCalls := [] }

/-! ## Auxiliary facts -/


theorem dateLt_eq_true_iff (a b : TimeValue) :
    dateLt a b = true ↔ ∃ x y, a = some x ∧ b = some y ∧ x < y := by
  cases a <;> cases b <;> simp [dateLt]

theorem dateLt_none_left (b : TimeValue) : dateLt none b = false := by
  cases b <;> rfl

theorem dateLt_none_right (a : TimeValue) : dateLt a none = false := by
  cases a <;> rfl

theorem mem_classListAdd_of_mem {tokens : List String} {c : String} (token : String)
    (h : c ∈ tokens) : c ∈ classListAdd tokens token := by
  unfold classListAdd
  split
  · exact h
  · exact List.mem_append_left _ h

theorem mem_classListAdd_self (tokens : List String) (token : String) :
    token ∈ classListAdd tokens token := by
  unfold classListAdd
  split
  · assumption
  · simp

theorem classListAdd_idem (tokens : List String) (token : String) :
    classListAdd (classListAdd tokens token) token = classListAdd tokens token := by
  have h := mem_classListAdd_self tokens token
  generalize classListAdd tokens token = marked at h ⊢
  unfold classListAdd
  simp [h]

theorem markPast_attributes (e : Element) : (markPast e).attributes = e.attributes := rfl

theorem getAttribute_markPast (e : Element) (name : String) :
    (markPast e).getAttribute name = e.getAttribute name := rfl

theorem dateObjOf_markPast (parse : String → TimeValue) (e : Element) :
    dateObjOf parse (markPast e) = dateObjOf parse e := rfl

theorem markPast_idem (e : Element) : markPast (markPast e) = markPast e := by
  cases e with
  | mk attributes classList style =>
    simp only [markPast, classListAdd_idem]

theorem markIfPast_idem (parse : String → TimeValue) (today : TimeValue) (e : Element) :
    markIfPast parse today (markIfPast parse today e) = markIfPast parse today e := by
  unfold markIfPast
  by_cases h : dateLt (dateObjOf parse e) today = true
  · simp [h, dateObjOf_markPast, markPast_idem]
  · simp [h]

theorem getAttribute_markIfPast (parse : String → TimeValue) (today : TimeValue) (e : Element)
    (name : String) : (markIfPast parse today e).getAttribute name = e.getAttribute name := by
  unfold markIfPast
  split <;> rfl

theorem mem_classList_markIfPast (parse : String → TimeValue) (today : TimeValue)
    {e : Element} {c : String} (h : c ∈ e.classList) :
    c ∈ (markIfPast parse today e).classList := by
  unfold markIfPast
  split
  · exact mem_classListAdd_of_mem _ h
  · exact h

theorem onDOMContentLoaded_eq (parse : String → TimeValue) (w : World) :
    onDOMContentLoaded parse w =
      .ok { w with document := w.document.map (markNode parse (referenceToday parse w)) } := rfl

theorem getAttribute_markNode (parse : String → TimeValue) (today : TimeValue) (e : Element)
    (name : String) : (markNode parse today e).getAttribute name = e.getAttribute name := by
  unfold markNode
  split
  · exact getAttribute_markIfPast _ _ _ _
  · rfl

theorem markNode_idem (parse : String → TimeValue) (today : TimeValue) (e : Element) :
    markNode parse today (markNode parse today e) = markNode parse today e := by
  unfold markNode
  by_cases h : Selector.test (.cls "day") e = true
  · have h2 : Selector.test (.cls "day") (markIfPast parse today e) = true := by
      simp only [Selector.test, decide_eq_true_eq] at h ⊢
      exact mem_classList_markIfPast _ _ h
    simp [h, h2, markIfPast_idem]
  · simp [h]

theorem firstIndex_map (p : Element → Bool) (f : Element → Element)
    (hf : ∀ e, p (f e) = p e) (l : List Element) :
    firstIndex p (l.map f) = firstIndex p l := by
  induction l with
  | nil => rfl
  | cons e es ih => simp [firstIndex, hf, ih]

theorem firstIndex_eq_none_iff (p : Element → Bool) (l : List Element) :
    firstIndex p l = none ↔ ∀ e ∈ l, p e = false := by
  induction l with
  | nil => simp [firstIndex]
  | cons e es ih =>
    by_cases h : p e = true
    · simp [firstIndex, h]
    · simp [firstIndex, h, ih]

theorem firstIndex_eq_some (p : Element → Bool) (l : List Element) (i : Nat)
    (h : firstIndex p l = some i) : ∃ e, l[i]? = some e ∧ p e = true := by
  induction l generalizing i with
  | nil => simp [firstIndex] at h
  | cons e es ih =>
    by_cases hp : p e = true
    · simp [firstIndex, hp] at h
      subst h
      exact ⟨e, by simp, hp⟩
    · simp [firstIndex, hp] at h
      obtain ⟨j, hj, rfl⟩ := h
      obtain ⟨e', he', hpe'⟩ := ih j hj
      exact ⟨e', by simpa using he', hpe'⟩

theorem dataTodayAttr_map (f : Element → Element)
    (hf : ∀ e name, (f e).getAttribute name = e.getAttribute name) (l : List Element) :
    dataTodayAttr (l.map f) = dataTodayAttr l := by
  unfold dataTodayAttr querySelector
  rw [firstIndex_map _ f (fun e => by simp [Selector.test, hf])]
  cases firstIndex (Selector.test (.hasAttr "data-today")) l with
  | none => rfl
  | some i =>
    simp only [Option.some_bind, List.getElem?_map]
    cases l[i]? with
    | none => rfl
    | some e => simp [hf]

theorem dataTodayAttr_eq_none_iff (l : List Element) :
    dataTodayAttr l = none ↔ ∀ e ∈ l, e.getAttribute "data-today" = none := by
  unfold dataTodayAttr querySelector
  constructor
  · intro h
    cases hi : firstIndex (Selector.test (.hasAttr "data-today")) l with
    | none =>
      intro e he
      have := (firstIndex_eq_none_iff _ l).1 hi e he
      simpa [Selector.test] using this
    | some i =>
      obtain ⟨e, he, hp⟩ := firstIndex_eq_some _ l i hi
      rw [hi] at h
      simp [he] at h
      simp [Selector.test, h] at hp
  · intro h
    have : firstIndex (Selector.test (.hasAttr "data-today")) l = none := by
      rw [firstIndex_eq_none_iff]
      intro e he
      simp [Selector.test, h e he]
    rw [this]
    rfl

theorem getElem?_updateAt (f : Element → Element) (i j : Nat) (l : List Element) :
    (updateAt f i l)[j]? = if j = i then (l[j]?).map f else l[j]? := by
  induction l generalizing i j with
  | nil => cases i <;> simp [updateAt]
  | cons e es ih =>
    cases i with
    | zero => cases j <;> simp [updateAt]
    | succ i => cases j <;> simp [updateAt, ih]

theorem firstIndex_updateAt (p : Element → Bool) (f : Element → Element)
    (hf : ∀ e, p (f e) = p e) (i : Nat) (l : List Element) :
    firstIndex p (updateAt f i l) = firstIndex p l := by
  induction l generalizing i with
  | nil => cases i <;> rfl
  | cons e es ih => cases i <;> simp [updateAt, firstIndex, hf, ih]

/-! ## The past-day marker -/


theorem getElem?_onDOMContentLoaded (parse : String → TimeValue) (w : World) (i : Nat) :
    (settle w (onDOMContentLoaded parse w)).document[i]? =
      (w.document[i]?).map (markNode parse (referenceToday parse w)) := by
  simp [onDOMContentLoaded_eq, settle, List.getElem?_map]

/-- C1 as stated fails: a day cell dated after the reference that the page
delivers with the class `past` and the `not-allowed` cursor still has both
after the listener ran. -/
theorem past_marker_on_or_after_counterexample :
    referenceToday sampleParse (samplePage "2024-01-15" [dayCellMarked "2024-01-20"] 1024 0)
        = some 1705276800000 ∧
      dateObjOf sampleParse (dayCellMarked "2024-01-20") = some 1705708800000 ∧
      (samplePage "2024-01-15" [dayCellMarked "2024-01-20"] 1024 0).document[1]?
        = some (dayCellMarked "2024-01-20") ∧
      ∃ w' e', onDOMContentLoaded sampleParse
          (samplePage "2024-01-15" [dayCellMarked "2024-01-20"] 1024 0) = .ok w' ∧
        w'.document[1]? = some e' ∧ "day" ∈ e'.classList ∧ "past" ∈ e'.classList ∧
        e'.style.cursor = "not-allowed" := by
  refine ⟨by decide, by decide, by decide, _, dayCellMarked "2024-01-20", rfl, ?_, ?_, ?_, ?_⟩ <;>
    decide

/-- C1, amended: the listener returns, and a `.day` element whose date is
strictly before the reference ends with the class `past` and the cursor
`not-allowed`, while a `.day` element whose date is on or after the reference
(or, more generally, for which the comparison is false) is left exactly as it
was. -/
theorem past_marker_marks_earlier_days (parse : String → TimeValue) (w : World) (i : Nat)
    (e : Element) (hi : w.document[i]? = some e) (hday : "day" ∈ e.classList) :
    ∃ w' e', onDOMContentLoaded parse w = .ok w' ∧ w'.document[i]? = some e' ∧
      (∀ d r, dateObjOf parse e = some d → referenceToday parse w = some r → d < r →
        "past" ∈ e'.classList ∧ e'.style.cursor = "not-allowed") ∧
      (∀ d r, dateObjOf parse e = some d → referenceToday parse w = some r → r ≤ d →
        e' = e) ∧
      (dateLt (dateObjOf parse e) (referenceToday parse w) = false → e' = e) := by
  have hday' : Selector.test (.cls "day") e = true := by simpa [Selector.test] using hday
  refine ⟨_, markIfPast parse (referenceToday parse w) e, onDOMContentLoaded_eq parse w, ?_,
    ?_, ?_, ?_⟩
  · simp [List.getElem?_map, hi, markNode, hday']
  · intro d r hd hr hlt
    have : dateLt (dateObjOf parse e) (referenceToday parse w) = true := by
      rw [dateLt_eq_true_iff]; exact ⟨d, r, hd, hr, hlt⟩
    simp only [markIfPast, this, if_true]
    exact ⟨mem_classListAdd_self _ _, rfl⟩
  · intro d r hd hr hle
    have : dateLt (dateObjOf parse e) (referenceToday parse w) = false := by
      rw [hd, hr]; simp [dateLt]; omega
    simp [markIfPast, this]
  · intro h
    simp [markIfPast, h]

/-- C1 on a page with reference 2024-01-15: the cell of 2024-01-10 is marked. -/
theorem past_marker_marks_earlier_days_witness :
    (samplePage "2024-01-15" [dayCell "2024-01-10", dayCell "2024-01-15"] 1024 0).document[1]?
        = some (dayCell "2024-01-10") ∧
      "day" ∈ (dayCell "2024-01-10").classList ∧
      ∃ w' e', onDOMContentLoaded sampleParse
          (samplePage "2024-01-15" [dayCell "2024-01-10", dayCell "2024-01-15"] 1024 0)
            = .ok w' ∧
        w'.document[1]? = some e' ∧ "past" ∈ e'.classList ∧ e'.style.cursor = "not-allowed" := by
  obtain ⟨w', e', h1, h2, h3, _, _⟩ := past_marker_marks_earlier_days sampleParse
    (samplePage "2024-01-15" [dayCell "2024-01-10", dayCell "2024-01-15"] 1024 0) 1
    (dayCell "2024-01-10") (by decide) (by decide)
  obtain ⟨h4, h5⟩ := h3 1704844800000 1705276800000 (by decide) (by decide) (by decide)
  exact ⟨by decide, by decide, w', e', h1, h2, h4, h5⟩

/-- C6 as stated fails: with `data-today` present and empty the reference is
the clock, not the (invalid) date the empty string parses to. -/
theorem reference_empty_attribute_counterexample :
    dataTodayAttr (samplePage "" [] 1024 1705276800123).document = some "" ∧
      referenceToday sampleParse (samplePage "" [] 1024 1705276800123) = some 1705276800123 ∧
      newDate sampleParse (.str "") = none := by
  refine ⟨by decide, by decide, by decide⟩

/-- C6, amended: the reference is the date parsed from the `data-today`
attribute of the first element carrying it whenever that value is a non-empty
string, and is the current moment of the host clock when no element carries
the attribute or the value is the empty string. -/
theorem reference_today_selection (parse : String → TimeValue) (w : World) :
    (∀ s, dataTodayAttr w.document = some s → s ≠ "" → referenceToday parse w = parse s) ∧
      (dataTodayAttr w.document = some "" → referenceToday parse w = some w.now) ∧
      ((∀ e ∈ w.document, e.getAttribute "data-today" = none) →
        referenceToday parse w = some w.now) := by
  refine ⟨?_, ?_, ?_⟩
  · intro s hs hne
    simp [referenceToday, todayArg, hs, hne, newDate]
  · intro hs
    simp [referenceToday, todayArg, hs, newDate]
  · intro h
    have hs := (dataTodayAttr_eq_none_iff w.document).2 h
    simp [referenceToday, todayArg, hs, newDate]

/-- C6 on two pages: a dated `data-today` is parsed, an empty one gives the clock. -/
theorem reference_today_selection_witness :
    referenceToday sampleParse (samplePage "2024-01-15" [] 1024 99) = some 1705276800000 ∧
      referenceToday sampleParse (samplePage "" [] 1024 99) = some 99 := by
  have h1 := (reference_today_selection sampleParse (samplePage "2024-01-15" [] 1024 99)).1
    "2024-01-15" (by decide) (by decide)
  have h2 := (reference_today_selection sampleParse (samplePage "" [] 1024 99)).2.1 (by decide)
  exact ⟨h1, h2⟩

/-- C7: running the `DOMContentLoaded` listener on the world it produced gives
that same world again: every class list and cursor, and everything else, is as
after the first run. -/
theorem past_marker_idempotent (parse : String → TimeValue) (w : World) :
    ∃ w', onDOMContentLoaded parse w = .ok w' ∧ onDOMContentLoaded parse w' = .ok w' := by
  refine ⟨_, onDOMContentLoaded_eq parse w, ?_⟩
  rw [onDOMContentLoaded_eq]
  have href : referenceToday parse
      { w with document := w.document.map (markNode parse (referenceToday parse w)) } =
      referenceToday parse w := by
    simp only [referenceToday, todayArg]
    rw [dataTodayAttr_map _ (getAttribute_markNode parse _)]
  rw [href]
  simp [List.map_map, Function.comp_def, markNode_idem]

/-- C9: when no element carries `data-today` the reference is the clock instant
itself, and a `.day` element whose date parses to an instant strictly before
the clock instant is marked past, whatever the calendar day of either. -/
theorem clock_reference_compares_instants (parse : String → TimeValue) (w : World)
    (i : Nat) (e : Element) (t : Int)
    (hno : ∀ el ∈ w.document, el.getAttribute "data-today" = none)
    (hi : w.document[i]? = some e) (hday : "day" ∈ e.classList)
    (ht : dateObjOf parse e = some t) (hlt : t < w.now) :
    referenceToday parse w = some w.now ∧
      ∃ w', onDOMContentLoaded parse w = .ok w' ∧ w'.document[i]? = some (markPast e) ∧
        "past" ∈ (markPast e).classList ∧ (markPast e).style.cursor = "not-allowed" := by
  have href : referenceToday parse w = some w.now := by
    have hs := (dataTodayAttr_eq_none_iff w.document).2 hno
    simp [referenceToday, todayArg, hs, newDate]
  have hday' : Selector.test (.cls "day") e = true := by simpa [Selector.test] using hday
  have hcmp : dateLt (dateObjOf parse e) (some w.now) = true := by
    rw [ht]; simpa [dateLt] using hlt
  refine ⟨href, _, onDOMContentLoaded_eq parse w, ?_, mem_classListAdd_self _ _, rfl⟩
  simp [List.getElem?_map, hi, markNode, hday', href, markIfPast, hcmp]


/-- C9 one millisecond after the UTC midnight of 2024-01-15: the cell of that very day is marked. -/
theorem clock_reference_compares_instants_witness :
    referenceToday sampleParse (clockPage [dayCell "2024-01-15"] 1024 1705276800001)
        = some 1705276800001 ∧
      ∃ w', onDOMContentLoaded sampleParse
          (clockPage [dayCell "2024-01-15"] 1024 1705276800001) = .ok w' ∧
        w'.document[1]? = some (markPast (dayCell "2024-01-15")) ∧
        "past" ∈ (markPast (dayCell "2024-01-15")).classList ∧
        (markPast (dayCell "2024-01-15")).style.cursor = "not-allowed" :=
  clock_reference_compares_instants sampleParse
    (clockPage [dayCell "2024-01-15"] 1024 1705276800001) 1 (dayCell "2024-01-15")
    1705276800000 (by decide) (by decide) (by decide) (by decide) (by decide)

/-- C10 as stated fails: a `.day` element without a `data-date` attribute is
read as the instant 0, and with a reference after it the element is marked. -/
theorem missing_date_is_marked_counterexample :
    dayCellNoDate.getAttribute "data-date" = none ∧
      (samplePage "2024-01-15" [dayCellNoDate] 1024 0).document[1]? = some dayCellNoDate ∧
      dateLt (dateObjOf sampleParse dayCellNoDate)
        (referenceToday sampleParse (samplePage "2024-01-15" [dayCellNoDate] 1024 0)) = true ∧
      ∃ w' e', onDOMContentLoaded sampleParse
          (samplePage "2024-01-15" [dayCellNoDate] 1024 0) = .ok w' ∧
        w'.document[1]? = some e' ∧ "past" ∈ e'.classList ∧
        e'.style.cursor = "not-allowed" ∧ e' ≠ dayCellNoDate := by
  refine ⟨by decide, by decide, by decide, _, markPast dayCellNoDate, rfl, ?_, ?_, ?_, ?_⟩ <;>
    decide

/-- C10, amended: the listener returns on every document, with every node
still in place; a `.day` element whose `data-date` is present and does not
parse to a valid date is left unchanged, and so is every `.day` element when
the reference is an invalid date. A `.day` element without `data-date` has the
instant 0 as its date. -/
theorem unparsable_dates_leave_element (parse : String → TimeValue) (w : World) (i : Nat)
    (e : Element) (hi : w.document[i]? = some e) (hday : "day" ∈ e.classList) :
    ∃ w' e', onDOMContentLoaded parse w = .ok w' ∧
      w'.document.length = w.document.length ∧ w'.document[i]? = some e' ∧
      (∀ s, e.getAttribute "data-date" = some s → parse s = none →
        dateLt (dateObjOf parse e) (referenceToday parse w) = false ∧ e' = e) ∧
      (referenceToday parse w = none →
        dateLt (dateObjOf parse e) (referenceToday parse w) = false ∧ e' = e) ∧
      (e.getAttribute "data-date" = none → dateObjOf parse e = some 0) := by
  have hday' : Selector.test (.cls "day") e = true := by simpa [Selector.test] using hday
  refine ⟨_, markIfPast parse (referenceToday parse w) e, onDOMContentLoaded_eq parse w, ?_,
    ?_, ?_, ?_, ?_⟩
  · simp
  · simp [List.getElem?_map, hi, markNode, hday']
  · intro s hs hp
    have hd : dateObjOf parse e = none := by simp [dateObjOf, hs, newDate, hp]
    have hc : dateLt (dateObjOf parse e) (referenceToday parse w) = false := by
      rw [hd]; exact dateLt_none_left _
    exact ⟨hc, by simp [markIfPast, hc]⟩
  · intro hr
    have hc : dateLt (dateObjOf parse e) (referenceToday parse w) = false := by
      rw [hr]; exact dateLt_none_right _
    exact ⟨hc, by simp [markIfPast, hc]⟩
  · intro hs
    simp [dateObjOf, hs, newDate]

/-- C10 on a cell whose `data-date` is `junk`: it is left as it was. -/
theorem unparsable_dates_leave_element_witness :
    (samplePage "2024-01-15" [dayCell "junk"] 1024 0).document[1]? = some (dayCell "junk") ∧
      "day" ∈ (dayCell "junk").classList ∧
      ∃ w' e', onDOMContentLoaded sampleParse (samplePage "2024-01-15" [dayCell "junk"] 1024 0)
          = .ok w' ∧ w'.document[1]? = some e' ∧ e' = dayCell "junk" := by
  obtain ⟨w', e', h1, _, h3, h4, _, _⟩ := unparsable_dates_leave_element sampleParse
    (samplePage "2024-01-15" [dayCell "junk"] 1024 0) 1 (dayCell "junk") (by decide) (by decide)
  exact ⟨by decide, by decide, w', e', h1, h3, (h4 "junk" (by decide) (by decide)).2⟩

/-! ## No handler removes the past marker -/

theorem markNode_cases (parse : String → TimeValue) (today : TimeValue) (e : Element) :
    markNode parse today e = e ∨ markNode parse today e = markPast e := by
  unfold markNode markIfPast
  split
  · split
    · exact Or.inr rfl
    · exact Or.inl rfl
  · exact Or.inl rfl

/-- C8: whichever listener of the script runs (`DOMContentLoaded`, `resize`,
`load`, `keydown`), every node stays at its position and a node that had the
class `past` before still has it afterwards; and the `DOMContentLoaded`
listener leaves a node either untouched or with its attributes, its other
classes and its font size as they were, `past` added to its classes and the
cursor set to `not-allowed`. -/
theorem past_mark_never_removed (parse : String → TimeValue) (ev : Event) (w : World)
    (i : Nat) (e : Element) (hi : w.document[i]? = some e) :
    (∃ e', (settle w (dispatch parse ev w)).document[i]? = some e' ∧
      ("past" ∈ e.classList → "past" ∈ e'.classList)) ∧
    (settle w (dispatch parse ev w)).document.length = w.document.length ∧
    (∃ e', (settle w (onDOMContentLoaded parse w)).document[i]? = some e' ∧
      (e' = e ∨
        (e'.attributes = e.attributes ∧ e'.style.fontSize = e.style.fontSize ∧
          (∀ c, c ∈ e'.classList ↔ c ∈ e.classList ∨ c = "past") ∧
          e'.style.cursor = "not-allowed"))) := by
  have hmark : ∀ e0 : Element, "past" ∈ e0.classList →
      "past" ∈ (markNode parse (referenceToday parse w) e0).classList := by
    intro e0 h0
    rcases markNode_cases parse (referenceToday parse w) e0 with h | h <;> rw [h]
    · exact h0
    · exact mem_classListAdd_of_mem _ h0
  have hresize : (∃ e', (settle w (makeCalendarResponsive w)).document[i]? = some e' ∧
      ("past" ∈ e.classList → "past" ∈ e'.classList)) ∧
      (settle w (makeCalendarResponsive w)).document.length = w.document.length := by
    unfold makeCalendarResponsive
    cases querySelector (.cls "calendar") w.document with
    | none => exact ⟨⟨e, hi, id⟩, rfl⟩
    | some c =>
      have hlen : ∀ v, (updateAt (setFontSize v) c w.document).length = w.document.length := by
        intro v
        generalize w.document = l
        induction l generalizing c with
        | nil => cases c <;> rfl
        | cons a as ih => cases c <;> simp [updateAt, ih]
      by_cases hw : w.innerWidth < 768
      · simp only [hw, if_true, settle, getElem?_updateAt, hi, hlen]
        by_cases hic : i = c
        · exact ⟨⟨setFontSize "80%" e, by simp [hic], id⟩, trivial⟩
        · exact ⟨⟨e, by simp [hic], id⟩, trivial⟩
      · simp only [hw, if_false, settle, getElem?_updateAt, hi, hlen]
        by_cases hic : i = c
        · exact ⟨⟨setFontSize "100%" e, by simp [hic], id⟩, trivial⟩
        · exact ⟨⟨e, by simp [hic], id⟩, trivial⟩
  have hdom : (settle w (onDOMContentLoaded parse w)).document[i]? =
      some (markNode parse (referenceToday parse w) e) := by
    rw [getElem?_onDOMContentLoaded, hi]; rfl
  refine ⟨?_, ?_, ⟨_, hdom, ?_⟩⟩
  · cases ev with
    | domContentLoaded => exact ⟨_, hdom, hmark e⟩
    | resize => exact hresize.1
    | load => exact hresize.1
    | keydown key =>
      refine ⟨e, ?_, id⟩
      simp only [dispatch, onKeydown]
      split
      · split <;> exact hi
      · exact hi
  · cases ev with
    | domContentLoaded => simp [dispatch, onDOMContentLoaded_eq, settle]
    | resize => exact hresize.2
    | load => exact hresize.2
    | keydown key =>
      simp only [dispatch, onKeydown]
      split
      · split <;> rfl
      · rfl
  · rcases markNode_cases parse (referenceToday parse w) e with h | h <;> rw [h]
    · exact Or.inl rfl
    · refine Or.inr ⟨rfl, rfl, ?_, rfl⟩
      intro c
      simp only [markPast, classListAdd]
      split
      · constructor
        · exact Or.inl
        · rintro (h1 | h1)
          · exact h1
          · subst h1; assumption
      · simp

/-- C8 on a `resize` event: the cell delivered as past is still past. -/
theorem past_mark_never_removed_witness :
    (samplePage "2024-01-20" [dayCellMarked "2024-01-20"] 500 0).document[1]?
        = some (dayCellMarked "2024-01-20") ∧
      ∃ e', (settle (samplePage "2024-01-20" [dayCellMarked "2024-01-20"] 500 0)
          (dispatch sampleParse .resize
            (samplePage "2024-01-20" [dayCellMarked "2024-01-20"] 500 0))).document[1]?
            = some e' ∧ "past" ∈ e'.classList := by
  obtain ⟨⟨e', h1, h2⟩, _, _⟩ := past_mark_never_removed sampleParse .resize
    (samplePage "2024-01-20" [dayCellMarked "2024-01-20"] 500 0) 1
    (dayCellMarked "2024-01-20") (by decide)
  exact ⟨by decide, e', h1, h2 (by decide)⟩

/-! ## Escape-to-close and the responsive font sizer -/


/-- C3: the `keydown` listener returns on every key; when the key is `Escape`
and an instance is registered for the element with id `addTaskModal`, exactly
one `hide()` call, on that instance, is added to the record; when the key is
anything else, or no instance is registered, no call is added. -/
theorem escape_hides_modal_once (key : String) (w : World) :
    ∃ w', onKeydown key w = .ok w' ∧
      (∀ m, key = "Escape" →
        modalGetInstance w (getElementById w.document "addTaskModal") = some m →
        w'.hideCalls = w.hideCalls ++ [m]) ∧
      (key ≠ "Escape" → w'.hideCalls = w.hideCalls) ∧
      (modalGetInstance w (getElementById w.document "addTaskModal") = none →
        w'.hideCalls = w.hideCalls) := by
  unfold onKeydown
  by_cases hk : key = "Escape"
  · cases hm : modalGetInstance w (getElementById w.document "addTaskModal") with
    | none => exact ⟨w, by simp [hk], by simp, by simp, by simp⟩
    | some m =>
      refine ⟨{ w with hideCalls := w.hideCalls ++ [m] }, by simp [hk], ?_, ?_, by simp⟩
      · intro m' _ hm'
        cases hm'
        rfl
      · intro h; exact absurd hk h
  · exact ⟨w, by simp [hk], fun m h => absurd h hk, fun _ => rfl, fun _ => rfl⟩

/-- C3 on three key presses: Escape with an instance, Enter, Escape without an instance. -/
theorem escape_hides_modal_once_witness :
    (∃ w', onKeydown "Escape" (samplePage "" [] 1024 0) = .ok w' ∧ w'.hideCalls = [7]) ∧
      (∃ w', onKeydown "Enter" (samplePage "" [] 1024 0) = .ok w' ∧ w'.hideCalls = []) ∧
      (∃ w', onKeydown "Escape" (clockPage [] 1024 0) = .ok w' ∧ w'.hideCalls = []) := by
  refine ⟨?_, ?_, ?_⟩
  · obtain ⟨w', h1, h2, _, _⟩ := escape_hides_modal_once "Escape" (samplePage "" [] 1024 0)
    exact ⟨w', h1, h2 7 rfl (by decide)⟩
  · obtain ⟨w', h1, _, h3, _⟩ := escape_hides_modal_once "Enter" (samplePage "" [] 1024 0)
    exact ⟨w', h1, h3 (by decide)⟩
  · obtain ⟨w', h1, _, _, h4⟩ := escape_hides_modal_once "Escape" (clockPage [] 1024 0)
    exact ⟨w', h1, h4 (by decide)⟩

/-- C4: with a `.calendar` container in the document, `makeCalendarResponsive`
returns, the container is still the first `.calendar` element, and its font
size is `80%` when the viewport width is below 768 and `100%` otherwise,
whatever it was before; so width 500 gives `80%`, and 768 and 1024 give `100%`. -/
theorem responsive_font_size (w : World) (c : Nat)
    (hc : querySelector (.cls "calendar") w.document = some c) :
    ∃ w' e', makeCalendarResponsive w = .ok w' ∧
      querySelector (.cls "calendar") w'.document = some c ∧ w'.document[c]? = some e' ∧
      e'.style.fontSize = (if w.innerWidth < 768 then "80%" else "100%") ∧
      (w.innerWidth = 500 → e'.style.fontSize = "80%") ∧
      (w.innerWidth = 768 → e'.style.fontSize = "100%") ∧
      (w.innerWidth = 1024 → e'.style.fontSize = "100%") := by
  obtain ⟨e, he, _⟩ := firstIndex_eq_some _ _ _ hc
  have hq : ∀ v, querySelector (.cls "calendar") (updateAt (setFontSize v) c w.document)
      = some c := by
    intro v
    unfold querySelector at hc ⊢
    rw [firstIndex_updateAt (Selector.test (.cls "calendar")) (setFontSize v) (fun _ => rfl), hc]
  have hget : ∀ v, (updateAt (setFontSize v) c w.document)[c]? = some (setFontSize v e) := by
    intro v
    simp [getElem?_updateAt, he]
  unfold makeCalendarResponsive
  rw [hc]
  by_cases hw : w.innerWidth < 768
  · refine ⟨{ w with document := updateAt (setFontSize "80%") c w.document },
      setFontSize "80%" e, by simp only [hw, if_true], hq _, hget _, by simp [hw, setFontSize],
      fun _ => rfl, ?_, ?_⟩ <;> intro h <;> omega
  · refine ⟨{ w with document := updateAt (setFontSize "100%") c w.document },
      setFontSize "100%" e, by simp only [hw, if_false], hq _, hget _,
      by simp [hw, setFontSize], ?_, fun _ => rfl, fun _ => rfl⟩
    intro h; omega

/-- C4 at viewport width 500: the container ends at `80%`. -/
theorem responsive_font_size_witness :
    querySelector (.cls "calendar") (samplePage "" [] 500 0).document = some 0 ∧
      ∃ w' e', makeCalendarResponsive (samplePage "" [] 500 0) = .ok w' ∧
        w'.document[0]? = some e' ∧ e'.style.fontSize = "80%" := by
  obtain ⟨w', e', h1, _, h3, _, h5, _, _⟩ :=
    responsive_font_size (samplePage "" [] 500 0) 0 (by decide)
  exact ⟨by decide, w', e', h1, h3, h5 rfl⟩

/-! ## `getTodayDate` -/


theorem digitChar_lt_ten : ∀ k < 10,
    (Nat.digitChar k).isDigit = true ∧ (Nat.digitChar k).toNat - 48 = k := by decide

theorem toDigitsCore_last (fuel n : Nat) (ds : List Char) (hf : 0 < fuel) (hn : n < 10) :
    Nat.toDigitsCore 10 fuel n ds = Nat.digitChar n :: ds := by
  cases fuel with
  | zero => omega
  | succ f =>
    have h0 : n / 10 = 0 := by omega
    have h1 : n % 10 = n := by omega
    simp [Nat.toDigitsCore, h0, h1]

theorem toDigitsCore_step (fuel n : Nat) (ds : List Char) (hf : 0 < fuel) (hn : 10 ≤ n) :
    Nat.toDigitsCore 10 fuel n ds =
      Nat.toDigitsCore 10 (fuel - 1) (n / 10) (Nat.digitChar (n % 10) :: ds) := by
  cases fuel with
  | zero => omega
  | succ f =>
    have h0 : n / 10 ≠ 0 := by omega
    simp [Nat.toDigitsCore, h0]

theorem jsString_natCast (n : Nat) : jsString (n : Int) = Nat.repr n := rfl

theorem repr_two_digits (n : Nat) (hn : n ≤ 99) :
    (padStart (jsString (n : Int)) 2 "0").data =
      [Nat.digitChar (n / 10), Nat.digitChar (n % 10)] := by
  rw [jsString_natCast]
  by_cases h : n < 10
  · have hd : (Nat.repr n).data = [Nat.digitChar n] := by
      simp only [Nat.repr, Nat.toDigits, List.asString]
      rw [toDigitsCore_last _ _ _ (by omega) h]
    have hl : (Nat.repr n).length = 1 := by simp [String.length, hd]
    have h0 : n / 10 = 0 := by omega
    have h1 : n % 10 = n := by omega
    simp [padStart, hl, hd, h0, h1]
    decide
  · have hd : (Nat.repr n).data = [Nat.digitChar (n / 10), Nat.digitChar (n % 10)] := by
      simp only [Nat.repr, Nat.toDigits, List.asString]
      rw [toDigitsCore_step _ _ _ (by omega) (by omega),
        toDigitsCore_last _ _ _ (by omega) (by omega)]
    have hl : (Nat.repr n).length = 2 := by simp [String.length, hd]
    simp [padStart, hl, hd]

theorem repr_four_digits (n : Nat) (hlo : 1000 ≤ n) (hhi : n ≤ 9999) :
    (jsString (n : Int)).data =
      [Nat.digitChar (n / 10 / 10 / 10), Nat.digitChar (n / 10 / 10 % 10),
        Nat.digitChar (n / 10 % 10), Nat.digitChar (n % 10)] := by
  rw [jsString_natCast]
  simp only [Nat.repr, Nat.toDigits, List.asString]
  rw [toDigitsCore_step _ _ _ (by omega) (by omega),
    toDigitsCore_step _ _ _ (by omega) (by omega),
    toDigitsCore_step _ _ _ (by omega) (by omega),
    toDigitsCore_last _ _ _ (by omega) (by omega)]

theorem getTodayDate_data (today : LocalDate) :
    (getTodayDate today).data = (jsString today.fullYear).data ++ '-' ::
      ((padStart (jsString ((today.month : Int) + 1)) 2 "0").data ++ '-' ::
        (padStart (jsString (today.date : Int)) 2 "0").data) := by
  simp [getTodayDate, String.data_append]

/-- C2 as stated fails: with the host clock in the year 10000 the string has a
five-digit year, and in the year 999 a three-digit one. -/
theorem today_string_year_counterexample :
    getTodayDate { fullYear := 10000, month := 0, date := 1 } = "10000-01-01" ∧
      isDatePattern (getTodayDate { fullYear := 10000, month := 0, date := 1 }) = false ∧
      getTodayDate { fullYear := 999, month := 11, date := 31 } = "999-12-31" ∧
      isDatePattern (getTodayDate { fullYear := 999, month := 11, date := 31 }) = false := by
  decide

/-- C2, amended: for every host clock whose local year is between 1000 and
9999, the string `getTodayDate` returns has the pattern four digits, `-`, two
digits, `-`, two digits, and its three fields are the local year, the month
number from 1 to 12 (the getter result plus one) and the day of the month. -/
theorem today_string_pattern (today : LocalDate)
    (hylo : 1000 ≤ today.fullYear) (hyhi : today.fullYear ≤ 9999)
    (hm : today.month ≤ 11) (hdlo : 1 ≤ today.date) (hdhi : today.date ≤ 31) :
    isDatePattern (getTodayDate today) = true ∧
      dateFields (getTodayDate today) =
        some (today.fullYear.toNat, today.month + 1, today.date) ∧
      1 ≤ today.month + 1 ∧ today.month + 1 ≤ 12 := by
  obtain ⟨y, m, d⟩ := today
  simp only at hylo hyhi hm hdlo hdhi
  obtain ⟨n, rfl⟩ := Int.eq_ofNat_of_zero_le (show (0 : Int) ≤ y by omega)
  have hn1 : 1000 ≤ n := by omega
  have hn2 : n ≤ 9999 := by omega
  have hdata := getTodayDate_data { fullYear := (n : Int), month := m, date := d }
  simp only at hdata
  have hmc : ((m : Int) + 1) = ((m + 1 : Nat) : Int) := by push_cast; rfl
  rw [hmc, repr_four_digits n hn1 hn2, repr_two_digits (m + 1) (by omega),
    repr_two_digits d (by omega)] at hdata
  simp only [List.cons_append, List.nil_append] at hdata
  have dg := digitChar_lt_ten
  have e1 := dg (n / 10 / 10 / 10) (by omega)
  have e2 := dg (n / 10 / 10 % 10) (by omega)
  have e3 := dg (n / 10 % 10) (by omega)
  have e4 := dg (n % 10) (by omega)
  have e5 := dg ((m + 1) / 10) (by omega)
  have e6 := dg ((m + 1) % 10) (by omega)
  have e7 := dg (d / 10) (by omega)
  have e8 := dg (d % 10) (by omega)
  have hpat : isDatePattern (getTodayDate { fullYear := (n : Int), month := m, date := d })
      = true := by
    simp only [isDatePattern, hdata]
    simp [e1.1, e2.1, e3.1, e4.1, e5.1, e6.1, e7.1, e8.1]
  refine ⟨hpat, ?_, Nat.le_add_left 1 m, Nat.succ_le_succ hm⟩
  simp only [dateFields, hpat, if_true, hdata, digitsValue, List.foldl]
  simp only [e1.2, e2.2, e3.2, e4.2, e5.2, e6.2, e7.2, e8.2, Int.toNat_ofNat]
  simp only [Option.some.injEq, Prod.mk.injEq]
  refine ⟨?_, ?_, ?_⟩ <;> omega

/-- C2 on 4 November 2026: the string is `2026-11-04`. -/
theorem today_string_pattern_witness :
    isDatePattern (getTodayDate { fullYear := 2026, month := 10, date := 4 }) = true ∧
      dateFields (getTodayDate { fullYear := 2026, month := 10, date := 4 })
        = some (2026, 11, 4) ∧
      getTodayDate { fullYear := 2026, month := 10, date := 4 } = "2026-11-04" := by
  obtain ⟨h1, h2, _⟩ := today_string_pattern { fullYear := 2026, month := 10, date := 4 }
    (by decide) (by decide) (by decide) (by decide) (by decide)
  exact ⟨h1, h2, by decide⟩

end Calendar
